import Mathlib

/-!
# Shallow embedding of `src/src/libmime/lang_detection.c`

This file embeds the runtime detection core of the language detector:
the data model (`rspamd_language_elt`, `rspamd_lang_detector`,
`rspamd_lang_detector_res`), the n-gram window walker
(`rspamd_language_detector_next_ngramm`), the stratified sampler
(`rspamd_language_detector_random_select`), the two candidate-scoring
scans (`rspamd_language_detector_process_ngramm_full` /
`..._process_ngramm_update`) and the facade
(`rspamd_language_detector_detect`).

Translation conventions:
* `UChar` (an ICU UTF-16 code unit) is modelled as `Nat`; a window or a
  token is a `List Nat`.
* A `GHashTable` mapping fixed-width grams to counts is modelled as an
  association list `List (List Nat × Nat)`; `g_hash_table_lookup`
  followed by `GPOINTER_TO_UINT` yields `0` for an absent key, which
  `lookupFreq` reproduces.
* The candidate table (`GHashTable` keyed by `elt->name`) is modelled as
  a `List rspamd_lang_detector_res`; the C table has unique keys, and
  every in-place update through a looked-up pointer becomes a pointwise
  `List.map`.
* A read past the end of the token buffer (the C code performs such
  reads, see the comments on the walker) is modelled by an explicit
  parameter `oob` standing for the indeterminate memory contents there.
* `rspamd_random_uint64_fast ()` is modelled by an injected stream
  `coins : Nat → Nat`, consumed in call order.
* A `g_assert` failure aborts the process; a function guarded by
  asserts is embedded with result type `Option _`, `none` standing for
  the abort.
-/

/-- UChar, an ICU UTF-16 code unit, modelled as an unbounded natural:
only equality of code units matters to the detector. -/
abbrev UChar := Nat

/-- The UTF-16 code unit of the ASCII space written by the boundary
fills of the walker (`(UChar)' '`). -/
def spaceUChar : UChar := 32

/-- Embeds `struct rspamd_language_elt` (lang_detection.c lines 29-37):
a language name plus three gram-to-frequency tables with their totals. -/
structure rspamd_language_elt where
  name : String
  unigramms_total : Nat
  unigramms : List (List UChar × Nat)
  bigramms_total : Nat
  bigramms : List (List UChar × Nat)
  trigramms_total : Nat
  trigramms : List (List UChar × Nat)
deriving DecidableEq

/-- Embeds `struct rspamd_lang_detector` (lines 39-43); the
`uchar_converter` handle is encoding glue and is not modelled. -/
structure rspamd_lang_detector where
  languages : List rspamd_language_elt
  short_text_limit : Nat
deriving DecidableEq

/-- Embeds `struct rspamd_lang_detector_res`, the per-call candidate
record: a back-reference to the language element, the language name the
candidate table is keyed by, and the accumulated score `prob`. -/
structure rspamd_lang_detector_res where
  elt : rspamd_language_elt
  lang : String
  prob : Nat
deriving DecidableEq

/-- Embeds `enum rspamd_language_gramm_type` (lines 306-310). -/
inductive rspamd_language_gramm_type where
  | rs_unigramm
  | rs_bigramm
  | rs_trigramm
deriving DecidableEq

open rspamd_language_gramm_type

/-- Embeds the `switch (type)` table selection that appears verbatim in
both scanning routines (lines 372-382 and 421-431). -/
def grammsOf (elt : rspamd_language_elt) :
    rspamd_language_gramm_type → List (List UChar × Nat)
  | rs_unigramm => elt.unigramms
  | rs_bigramm => elt.bigramms
  | rs_trigramm => elt.trigramms

/-- Embeds `GPOINTER_TO_UINT (g_hash_table_lookup (ngramms, window))`:
the stored frequency of the window, `0` when the window is absent (a
NULL pointer converts to `0`). -/
def lookupFreq (ngramms : List (List UChar × Nat)) (window : List UChar) : Nat :=
  match ngramms.find? (fun p => p.1 == window) with
  | some p => p.2
  | none => 0

/-- Embeds one call of `rspamd_language_detector_next_ngramm`
(lines 312-354).  The result is `none` for the C return value `-1`, and
otherwise the final contents of the `window` buffer paired with the
returned next offset `cur_off + 1`.

Control flow is translated branch for branch.  Note that in the source
the leading-space fill (`cur_off == 0`, lines 321-327) and the
trailing-space fill (`cur_off + wlen == tok->len + 1`, lines 328-334)
do not return: control always falls through to the "normal case" loop
(lines 341-343), which rewrites every slot `window[i] = tok[cur_off+i]`.
The final buffer contents in every emitting branch are therefore the
normal-case fill, which is what each `some` below carries.  The
normal-case fill of the last emitted window reads `tok[tok->len]`, one
code unit past the buffer; that read — and the reads the boundary fills
perform on tokens shorter than `wlen - 1` — are modelled by `tok.getD _
oob`. -/
def rspamd_language_detector_next_ngramm (tok : List UChar) (oob : UChar)
    (wlen : Nat) (cur_off : Nat) : Option (List UChar × Nat) :=
  if wlen > 1 then
    if cur_off = 0 then
      some ((List.range wlen).map (fun i => tok.getD (cur_off + i) oob), cur_off + 1)
    else if cur_off + wlen = tok.length + 1 then
      some ((List.range wlen).map (fun i => tok.getD (cur_off + i) oob), cur_off + 1)
    else if cur_off + wlen > tok.length + 1 then
      none
    else
      some ((List.range wlen).map (fun i => tok.getD (cur_off + i) oob), cur_off + 1)
  else
    if tok.length ≥ cur_off then
      none
    else
      some ([tok.getD cur_off oob], cur_off + 1)

/-- Fuel-indexed transcript of the window-walk loop shared by
`rspamd_language_detector_update_guess` (lines 466-470) and
`rspamd_language_detector_detect_word` (lines 494-498): call
`next_ngramm` with the offset it last returned until it returns `-1`,
recording the successive window contents.  (The loop bodies in the
source are empty, so the transcript is the only observable of the
walk.)  Each emitted window advances `cur_off` by one and emission stops
once `cur_off` exceeds `tok.length + 1 - wlen`, so `tok.length + 3`
units of fuel are never exhausted. -/
def collectNgramms (tok : List UChar) (oob : UChar) (wlen : Nat) :
    Nat → Nat → List (List UChar)
  | 0, _ => []
  | fuel + 1, cur_off =>
    match rspamd_language_detector_next_ngramm tok oob wlen cur_off with
    | none => []
    | some (w, next) => w :: collectNgramms tok oob wlen fuel next

/-- The full window transcript of one token for one window size,
starting as the source does from `cur = 0`. -/
def ngrammWindows (tok : List UChar) (oob : UChar) (wlen : Nat) : List (List UChar) :=
  collectNgramms tok oob wlen (tok.length + 3) 0

/-- Embeds the `for` loop of `rspamd_language_detector_random_select`
(lines 298-303): `i` starts at `step_len + remainder` and advances by
`step_len` while `i < len`; each iteration writes
`coin % step_len + i` into `offsets_out[out_idx]` and only then
increments `out_idx`.  `j` indexes the coin stream (the pre-loop draw
consumed coin 0).  The fuel argument only bounds the recursion: the
caller passes `len` units while the loop performs at most
`nwords - 1 ≤ len` iterations (its step is `≥ 1` under the caller's
asserts), so the `0` case is never reached from
`rspamd_language_detector_random_select`. -/
def selectLoop (len step_len : Nat) (coins : Nat → Nat) :
    Nat → Nat → Nat → Nat → List (Option Nat) → List (Option Nat)
  | 0, _, _, _, out => out
  | fuel + 1, j, i, out_idx, out =>
    if i < len then
      selectLoop len step_len coins fuel (j + 1) (i + step_len) (out_idx + 1)
        (out.set out_idx (some (coins j % step_len + i)))
    else
      out

/-- Embeds `rspamd_language_detector_random_select` (lines 264-304).
`ucs_tokens` enters only through its length, so the embedding takes the
length directly.  The two `g_assert`s on lines 271 and 273 abort the
process when `nwords == 0` or `ucs_tokens->len < nwords`; the abort is
the `none` result.  The caller-provided `offsets_out` array has
`nwords` cells whose prior contents are indeterminate, modelled as
`List.replicate nwords none`; a cell the function never writes stays
`none`.  Before the loop the function writes
`coin % (step_len + remainder)` into cell `0`. -/
def rspamd_language_detector_random_select (ucs_tokens_len nwords : Nat)
    (coins : Nat → Nat) : Option (List (Option Nat)) :=
  if nwords = 0 ∨ ucs_tokens_len < nwords then
    none
  else
    let step_len := ucs_tokens_len / nwords
    let remainder := ucs_tokens_len % nwords
    let out0 := (List.replicate nwords (none : Option Nat)).set 0
      (some (coins 0 % (step_len + remainder)))
    some (selectLoop ucs_tokens_len step_len coins ucs_tokens_len 1
      (step_len + remainder) 0 out0)

/-- Embeds `rspamd_language_detector_detect` (lines 501-511).  The body
of the function consists of an `if (words_len < d->short_text_limit)`
whose branch is empty and two comments; there is no other statement and
no `return`, so the function falls off its end and the `const gchar *`
it "returns" is whatever indeterminate value is left over.  That value
is modelled by the explicit parameter `leftover`; both branches of the
`if` produce it. -/
def rspamd_language_detector_detect (leftover : Option String)
    (d : rspamd_lang_detector) (ucs_tokens : List (List UChar))
    (words_len : Nat) : Option String :=
  if words_len < d.short_text_limit then
    leftover
  else
    leftover

/-- Embeds one iteration of the language loop of
`rspamd_language_detector_process_ngramm_full` (lines 369-397) acting
on the candidate table: look the window up in the element's table for
the current gram order, then look the element's name up among the
candidates.  If a candidate exists, its `prob` is incremented in place
(`cand->prob += freq`, line 395).  If none exists the source `malloc`s
a fresh record with `prob = freq` (lines 388-391) but never calls
`g_hash_table_insert`, so the record is unreachable and the candidate
table is left unchanged — hence the `else` branch returns `cands`
untouched. -/
def fullStep (window : List UChar) (type : rspamd_language_gramm_type)
    (cands : List rspamd_lang_detector_res) (elt : rspamd_language_elt) :
    List rspamd_lang_detector_res :=
  let freq := lookupFreq (grammsOf elt type) window
  if cands.any (fun c => c.lang == elt.name) then
    cands.map (fun c =>
      if c.lang == elt.name then { c with prob := c.prob + freq } else c)
  else
    cands

/-- Embeds `rspamd_language_detector_process_ngramm_full`
(lines 359-398): iterate over every language of the detector in order,
performing `fullStep` for each. -/
def rspamd_language_detector_process_ngramm_full (d : rspamd_lang_detector)
    (window : List UChar) (type : rspamd_language_gramm_type)
    (candidates : List rspamd_lang_detector_res) :
    List rspamd_lang_detector_res :=
  d.languages.foldl (fullStep window type) candidates

/-- Embeds `rspamd_language_detector_process_ngramm_update`
(lines 403-443).  The C iterates the candidate table once, doing
`cand->prob += freq` and `total_freq += freq` in the same pass; the
embedding computes the updated table and the running total as two
traversals of the same list, which agree elementwise with that single
pass.  When `total_freq == 0` the function falls back to the full scan
on the (already updated) candidate table, line 441. -/
def rspamd_language_detector_process_ngramm_update (d : rspamd_lang_detector)
    (window : List UChar) (type : rspamd_language_gramm_type)
    (candidates : List rspamd_lang_detector_res) :
    List rspamd_lang_detector_res :=
  let updated := candidates.map (fun c =>
    { c with prob := c.prob + lookupFreq (grammsOf c.elt type) window })
  let total_freq := (candidates.map (fun c =>
    lookupFreq (grammsOf c.elt type) window)).sum
  if total_freq = 0 then
    rspamd_language_detector_process_ngramm_full d window type updated
  else
    updated

/-- The total score a full scan over the language list `ls` adds to a
candidate whose key is `lang`: the sum, over the elements whose `name`
equals `lang`, of the window's frequency in that element's table for
the current gram order.  (With unique names this is the single
frequency from the matching element's table.) -/
def gainOf (window : List UChar) (type : rspamd_language_gramm_type)
    (ls : List rspamd_language_elt) (lang : String) : Nat :=
  (ls.map (fun elt =>
    if lang == elt.name then lookupFreq (grammsOf elt type) window else 0)).sum

/-- Toy language "en" of spec section 8: unigram table e:10, n:5, t:8
(UTF-16 code units 101, 110, 116). -/
def eltEn : rspamd_language_elt :=
  { name := "en"
    unigramms_total := 23
    unigramms := [([101], 10), ([110], 5), ([116], 8)]
    bigramms_total := 0
    bigramms := []
    trigramms_total := 0
    trigramms := [] }

/-- Toy language "xx" of spec section 8: unigram table e:1, n:1, t:1. -/
def eltXx : rspamd_language_elt :=
  { name := "xx"
    unigramms_total := 3
    unigramms := [([101], 1), ([110], 1), ([116], 1)]
    bigramms_total := 0
    bigramms := []
    trigramms_total := 0
    trigramms := [] }

/-- Toy detector holding the two spec-section-8 languages, with the
source's default `short_text_limit` of 200 (line 25). -/
def dToy : rspamd_lang_detector :=
  { languages := [eltEn, eltXx], short_text_limit := 200 }

/-- The token "tent" of the spec-section-8 scenario, as UTF-16 code
units. -/
def tokTent : List UChar := [116, 101, 110, 116]

/-! ## Helper lemmas -/

/-- One `fullStep` acts pointwise on the candidate table: the candidate
keyed by the element's name (if any) gains the window's frequency,
every other candidate is untouched, and — because the freshly allocated
record of the `cand == NULL` branch is never inserted — no entry is
added. -/
theorem fullStep_eq_map (window : List UChar) (type : rspamd_language_gramm_type)
    (cands : List rspamd_lang_detector_res) (elt : rspamd_language_elt) :
    fullStep window type cands elt =
      cands.map (fun c => if c.lang == elt.name
        then { c with prob := c.prob + lookupFreq (grammsOf elt type) window }
        else c) := by
  simp only [fullStep]
  by_cases h : cands.any (fun c => c.lang == elt.name)
  · rw [if_pos h]
  · rw [if_neg h]
    refine ((List.map_congr_left ?_).trans (List.map_id' cands)).symm
    intro c hc
    have hc' : ¬(c.lang == elt.name) = true := by
      intro hx
      exact h (List.any_eq_true.mpr ⟨c, hc, hx⟩)
    simp [hc']

/-- Folding `fullStep` over a language list acts pointwise on the
candidate table, adding to each candidate the summed frequencies of the
window in the tables of the elements sharing its name. -/
theorem foldl_fullStep_eq_map (window : List UChar)
    (type : rspamd_language_gramm_type) :
    ∀ (ls : List rspamd_language_elt) (c : List rspamd_lang_detector_res),
      ls.foldl (fullStep window type) c =
        c.map (fun r => { r with prob := r.prob + gainOf window type ls r.lang })
  | [], c => by
    refine (List.map_id'' (fun r => ?_) c).symm
    simp [gainOf]
  | elt :: ls, c => by
    rw [List.foldl_cons,
      foldl_fullStep_eq_map window type ls (fullStep window type c elt),
      fullStep_eq_map, List.map_map]
    refine List.map_congr_left ?_
    intro r _
    by_cases h : r.lang = elt.name
    · simp [Function.comp, h, gainOf, Nat.add_assoc]
    · simp [Function.comp, h, gainOf]

/-- Extensional description of the full scan: every candidate gains the
window's frequency in the table of its language, and the table gets no
new entry (the allocated record of the `cand == NULL` branch is never
inserted into the hash table). -/
theorem full_eq_map (d : rspamd_lang_detector) (window : List UChar)
    (type : rspamd_language_gramm_type) (c : List rspamd_lang_detector_res) :
    rspamd_language_detector_process_ngramm_full d window type c =
      c.map (fun r =>
        { r with prob := r.prob + gainOf window type d.languages r.lang }) :=
  foldl_fullStep_eq_map window type d.languages c

/-- Extensional description of the update scan: each candidate first
gains the window's frequency from its own element's table, and exactly
when the total of those frequencies is zero the full-scan gain is
applied on top. -/
theorem update_characterization (d : rspamd_lang_detector) (window : List UChar)
    (type : rspamd_language_gramm_type) (c : List rspamd_lang_detector_res) :
    rspamd_language_detector_process_ngramm_update d window type c =
      if (c.map (fun r => lookupFreq (grammsOf r.elt type) window)).sum = 0 then
        (c.map (fun r =>
          { r with prob := r.prob + lookupFreq (grammsOf r.elt type) window })).map
          (fun r => { r with prob := r.prob + gainOf window type d.languages r.lang })
      else
        c.map (fun r =>
          { r with prob := r.prob + lookupFreq (grammsOf r.elt type) window }) := by
  simp only [rspamd_language_detector_process_ngramm_update]
  by_cases h : (c.map (fun r => lookupFreq (grammsOf r.elt type) window)).sum = 0
  · rw [if_pos h, if_pos h, full_eq_map]
  · rw [if_neg h, if_neg h]

/-- Mapping a function over a list relates the list to its image
pointwise. -/
theorem forall2_map_self {α : Type} (R : α → α → Prop) (f : α → α) :
    ∀ l : List α, (∀ a ∈ l, R a (f a)) → List.Forall₂ R l (l.map f)
  | [], _ => List.Forall₂.nil
  | a :: l, h => List.Forall₂.cons (h a (List.mem_cons_self a l))
      (forall2_map_self R f l (fun b hb => h b (List.mem_cons_of_mem a hb)))

/-- The sampler loop only overwrites cells of the output array, so the
array's length never changes. -/
theorem selectLoop_length (len step_len : Nat) (coins : Nat → Nat) :
    ∀ (fuel j i out_idx : Nat) (out : List (Option Nat)),
      (selectLoop len step_len coins fuel j i out_idx out).length = out.length
  | 0, _, _, _, _ => rfl
  | fuel + 1, j, i, out_idx, out => by
    simp only [selectLoop]
    by_cases h : i < len
    · rw [if_pos h, selectLoop_length len step_len coins fuel _ _ _ _,
        List.length_set]
    · rw [if_neg h]

/-- The detect facade executes no statement: whatever the detector, the
tokens and the word count, its result is the indeterminate leftover
value. -/
theorem detect_eq_leftover (leftover : Option String) (d : rspamd_lang_detector)
    (ucs_tokens : List (List UChar)) (words_len : Nat) :
    rspamd_language_detector_detect leftover d ucs_tokens words_len = leftover := by
  simp only [rspamd_language_detector_detect]
  by_cases h : words_len < d.short_text_limit
  · rw [if_pos h]
  · rw [if_neg h]

/-! ## Claim theorems -/

/-- C1: the claim states that for every non-empty token sequence whose
n-grams match a known language, the detect entry point returns the name
of the candidate with the maximal accumulated score.  The code refutes
it: the body of `rspamd_language_detector_detect` contains no statement
and no `return`, so on the spec's own section-8 scenario (toy languages
"en" and "xx", token "tent", whose unigram scores favour "en") the
function computes no scores and merely yields the indeterminate
leftover value, whatever that is — never specifically the maximal
candidate's name. -/
theorem C1_detect_returns_leftover_not_max (leftover : Option String)
    (words_len : Nat) :
    rspamd_language_detector_detect leftover dToy [tokTent] words_len = leftover :=
  detect_eq_leftover leftover dToy [tokTent] words_len

/-- C2: the claim states that for a token of length `L` and window size
`w ∈ {2,3}` the walker emits `L+1` windows — a leading space-padded
window, the interior windows, and a trailing space-padded window, each
boundary window exactly once.  Counterexample on the token "ab"
(code units 97, 98) with `w = 2`: the code emits only `2 = L` windows,
`[97,98]` and `[98, oob]` (here `oob = 0` stands for the read one past
the buffer) — the space-padded windows `[32,97]` and `[98,32]` are
computed but overwritten by the unconditional normal-case copy, so no
boundary window is emitted at all and the count is `L`, not `L+1`. -/
theorem C2_bigram_windows_counterexample :
    ngrammWindows [97, 98] 0 2 = [[97, 98], [98, 0]] ∧
    (ngrammWindows [97, 98] 0 2).length ≠ [97, 98].length + 1 := by decide

/-- C3: the claim states that for `w = 1` the walker emits the `L`
characters of the token, one window each.  Counterexample on the
one-character token "a" (code unit 97): the guard
`if (tok->len >= cur_off) return -1;` is satisfied already at
`cur_off = 0` (`1 ≥ 0`), so the walk stops immediately and emits `0`
windows instead of `L = 1`. -/
theorem C3_unigram_windows_counterexample :
    ngrammWindows [97] 0 1 = [] ∧
    (ngrammWindows [97] 0 1).length ≠ [97].length := by decide

/-- C4: the claim states that detection processes gram orders
unigram → bigram → trigram at or above the short-text threshold and
trigram only below it.  The code refutes it: both branches of the
threshold test in `rspamd_language_detector_detect` are empty, so no
gram order is processed in either regime and the result is the same
indeterminate leftover on both sides of the threshold (here word counts
5 and 1000 against the default limit 200). -/
theorem C4_detect_ignores_threshold (leftover : Option String) :
    rspamd_language_detector_detect leftover dToy [tokTent] 5 =
      rspamd_language_detector_detect leftover dToy [tokTent] 1000 ∧
    rspamd_language_detector_detect leftover dToy [tokTent] 5 = leftover :=
  ⟨(detect_eq_leftover leftover dToy [tokTent] 5).trans
    (detect_eq_leftover leftover dToy [tokTent] 1000).symm,
   detect_eq_leftover leftover dToy [tokTent] 5⟩

/-- C5: the claim states that a full scan leaves the candidate set with
a candidate for every known language, created when absent.
Counterexample: scanning the window "e" (code unit 101, frequency 10 in
the toy "en" table) with an empty candidate set leaves the set empty —
the `cand == NULL` branch of
`rspamd_language_detector_process_ngramm_full` allocates and fills a
new record but never calls `g_hash_table_insert`, so no language ever
enters the candidate set. -/
theorem C5_full_scan_inserts_nothing :
    lookupFreq (grammsOf eltEn rs_unigramm) [101] = 10 ∧
    rspamd_language_detector_process_ngramm_full dToy [101] rs_unigramm [] =
      [] := by decide

/-- C6: the claim states that the update scan consults only the tables
of languages already having a candidate, adds each retrieved count to
that candidate's score and to a running total, and performs a full scan
for the same window exactly when the running total is zero.  Proved:
the update scan equals the pointwise bump of every candidate by its own
table's frequency, with the full scan's effect (the `gainOf` bump over
all languages of the detector) applied on top precisely in the
zero-total case. -/
theorem C6_update_scan_spec (d : rspamd_lang_detector) (window : List UChar)
    (type : rspamd_language_gramm_type) (c : List rspamd_lang_detector_res) :
    rspamd_language_detector_process_ngramm_update d window type c =
      if (c.map (fun r => lookupFreq (grammsOf r.elt type) window)).sum = 0 then
        (c.map (fun r =>
          { r with prob := r.prob + lookupFreq (grammsOf r.elt type) window })).map
          (fun r => { r with prob := r.prob + gainOf window type d.languages r.lang })
      else
        c.map (fun r =>
          { r with prob := r.prob + lookupFreq (grammsOf r.elt type) window }) :=
  update_characterization d window type c

/-- C7: the claim states that the sampler returns exactly `k` indices,
one per contiguous partition, strictly increasing, the first partition
covering `[0, step+remainder)`.  Counterexample at the code's own
worked example `N = 5, k = 2` (partitions `[0,3)` and `[3,5)`), proved
for every coin stream: the loop's first iteration reuses output slot 0
(`out_idx` is incremented only after the write), overwriting the first
partition's pick with the second partition's pick `coins 1 % 2 + 3 ∈
[3,5)`, and slot 1 is never written (`none`): the caller gets one index
from one partition, not two strictly increasing indices — and nothing
at all in the last slot. -/
theorem C7_select_counterexample (coins : Nat → Nat) :
    rspamd_language_detector_random_select 5 2 coins =
      some [some (coins 1 % 2 + 3), none] := rfl

/-- C8: the claim states that an empty token sequence (and an all-zero
score outcome) makes the detector report the explicit "undetermined"
outcome rather than an arbitrary language label.  The code refutes it:
`rspamd_language_detector_detect` has no `return` statement, so on an
empty token sequence it yields whatever indeterminate value is left
over — instantiating that leftover with the arbitrary language label
"xx" shows the caller can receive an arbitrary label, never a
distinguished undetermined sentinel. -/
theorem C8_detect_empty_input_not_undetermined (words_len : Nat) :
    rspamd_language_detector_detect (some "xx") dToy [] words_len = some "xx" :=
  detect_eq_leftover (some "xx") dToy [] words_len

/-- C9: the claim states that the sampler fails exactly when `k = 0` or
`N < k` (a distinguished caller-contract violation, no silent
clamping) and succeeds on every other input.  Proved: the embedded
`rspamd_language_detector_random_select` aborts (the `g_assert`s,
modelled as `none`) iff `k = 0 ∨ N < k`, and on success returns the
caller's `k`-cell output array. -/
theorem C9_select_contract (len k : Nat) (coins : Nat → Nat) :
    (rspamd_language_detector_random_select len k coins = none ↔
      (k = 0 ∨ len < k)) ∧
    (∀ out, rspamd_language_detector_random_select len k coins = some out →
      out.length = k) := by
  by_cases h : k = 0 ∨ len < k
  · constructor
    · simp [rspamd_language_detector_random_select, h]
    · intro out hout
      simp [rspamd_language_detector_random_select, h] at hout
  · constructor
    · simp [rspamd_language_detector_random_select, h]
    · intro out hout
      simp only [rspamd_language_detector_random_select, if_neg h,
        Option.some.injEq] at hout
      subst hout
      rw [selectLoop_length, List.length_set, List.length_replicate]

/-- Witness for C9 at the concrete input `N = 5`, `k = 2`, zero coins:
the contract theorem applies and its hypotheses are discharged by
evaluation. -/
theorem C9_select_contract_witness :
    (rspamd_language_detector_random_select 5 2 (fun _ => 0) = none ↔
      (2 = 0 ∨ 5 < 2)) ∧
    ([some 3, none] : List (Option Nat)).length = 2 :=
  ⟨(C9_select_contract 5 2 (fun _ => 0)).1,
   (C9_select_contract 5 2 (fun _ => 0)).2 [some 3, none] (by decide)⟩

/-- C10: the claim states that during one detection call the candidate
set only grows and scores never decrease under either scan.  Proved:
both `rspamd_language_detector_process_ngramm_full` and
`rspamd_language_detector_process_ngramm_update` relate the input
candidate list to the output pointwise — same length (no candidate is
ever removed), same language key per position, and a pointwise
non-decreasing score. -/
theorem C10_candidates_monotone (d : rspamd_lang_detector) (window : List UChar)
    (type : rspamd_language_gramm_type) (c : List rspamd_lang_detector_res) :
    List.Forall₂ (fun old new => new.lang = old.lang ∧ old.prob ≤ new.prob) c
      (rspamd_language_detector_process_ngramm_full d window type c) ∧
    List.Forall₂ (fun old new => new.lang = old.lang ∧ old.prob ≤ new.prob) c
      (rspamd_language_detector_process_ngramm_update d window type c) := by
  constructor
  · rw [full_eq_map]
    exact forall2_map_self _ _ c (fun a _ => ⟨rfl, Nat.le_add_right _ _⟩)
  · rw [update_characterization]
    by_cases h : (c.map (fun r => lookupFreq (grammsOf r.elt type) window)).sum = 0
    · rw [if_pos h, List.map_map]
      exact forall2_map_self _ _ c (fun a _ =>
        ⟨rfl, Nat.le_trans (Nat.le_add_right _ _) (Nat.le_add_right _ _)⟩)
    · rw [if_neg h]
      exact forall2_map_self _ _ c (fun a _ => ⟨rfl, Nat.le_add_right _ _⟩)
